import Mathlib

/-!
A shallow embedding, in Lean 4, of the message-archive read path of the
macos-mcp repository: the typedstream variable-length decoder, the
attributedBody text-recovery heuristics, the text resolver, the timestamp
converters and the message query layer (`src/messages/parser.ts`,
`src/messages/database.ts`, `src/messages/service.ts`,
`src/messages/tools.ts`).

Modeling conventions:
* A Node `Buffer` is a `List Nat` of byte values (each `< 256` in real runs;
  theorems that need this carry it as a hypothesis).
* A JavaScript string is modeled by its byte sequence as a `List Nat`:
  `buffer.toString("utf8")` is the identity on the byte list, `s.length` is
  the byte count and character iteration is byte iteration.  For the ASCII
  texts the claims are about this coincides with JavaScript semantics.
* The 80% printability threshold `count / length >= 0.8` (a float comparison
  in the source) is modeled exactly as the rational inequality
  `4 * length ≤ 5 * count`; for list lengths far below 2^52 the two agree.
* A JavaScript number that may be `NaN` (the result of `Date` parsing) is
  `JsNum`; `JsNum.nan` models `NaN` and propagates through arithmetic.
  SQLite stores a bound `NaN` as `NULL`, and any comparison with `NULL`
  is not true, which is modeled in the date-range filters.
* SQL semantics of the service queries are modeled directly: the message
  table is a list of rows, `WHERE` is `List.filter`, `ORDER BY m.date DESC`
  is an insertion sort (SQLite sorts `NULL` last in descending order),
  `LIMIT` is `List.take`, and `LIKE` is an ASCII-case-insensitive pattern
  matcher with the `%` and `_` wildcards.
-/

/-- Byte sequence of the source marker string `"NSString"`. -/
def nsStringMarker : List Nat := [78, 83, 83, 116, 114, 105, 110, 103]

/-- Byte sequence of the source marker string `"NSMutableString"`. -/
def nsMutableStringMarker : List Nat :=
  [78, 83, 77, 117, 116, 97, 98, 108, 101, 83, 116, 114, 105, 110, 103]

/-- Byte sequence of the source string `"NSMutableAttributedString"`. -/
def nsMutableAttributedMarker : List Nat :=
  [78, 83, 77, 117, 116, 97, 98, 108, 101, 65, 116, 116, 114, 105, 98,
   117, 116, 101, 100, 83, 116, 114, 105, 110, 103]

/-- Byte sequence of the source string `"streamtyped"`. -/
def streamtypedHeader : List Nat := [115, 116, 114, 101, 97, 109, 116, 121, 112, 101, 100]

/-- Byte sequence of the source string `"NS"` (the reserved class-name start). -/
def nsClassBytes : List Nat := [78, 83]

/-- `Buffer.prototype.readUInt32LE`: the four bytes starting at `pos` read as
an unsigned little-endian 32-bit integer (Node's documented semantics). -/
def readUInt32LE (blob : List Nat) (pos : Nat) : Nat :=
  blob.getD pos 0 + blob.getD (pos + 1) 0 * 256 + blob.getD (pos + 2) 0 * 65536 +
    blob.getD (pos + 3) 0 * 16777216

/-- `decodeTypedstreamLength` from `src/messages/parser.ts`: decode a
typedstream variable-length integer at `pos`, returning the decoded length
and the number of bytes consumed.  Out-of-range reads cannot happen in the
source (every access is guarded); here reads use `getD _ 0`, and
`decodeTypedstreamLengthChecked` below proves the guards suffice. -/
def decodeTypedstreamLength (blob : List Nat) (pos : Nat) : Nat × Nat :=
  if blob.length ≤ pos then (0, 0)
  else
    let firstByte := blob.getD pos 0
    if firstByte < 128 then (firstByte, 1)
    else if firstByte = 129 then
      if blob.length ≤ pos + 2 then (0, 1)
      else (blob.getD (pos + 1) 0 ||| (blob.getD (pos + 2) 0 <<< 8), 3)
    else if firstByte = 130 then
      if blob.length ≤ pos + 4 then (0, 1)
      else (readUInt32LE blob (pos + 1), 5)
    else (firstByte, 1)

/-- Variant of `decodeTypedstreamLength` in which every byte access is an
`Option`-returning bounds-checked read and any out-of-range access aborts
with `none`.  `decodeTypedstreamLength_spec` proves it never aborts, which
is the shallow-embedding statement that the decoder never reads past the
buffer end. -/
def decodeTypedstreamLengthChecked (blob : List Nat) (pos : Nat) : Option (Nat × Nat) :=
  if blob.length ≤ pos then some (0, 0)
  else
    match blob.get? pos with
    | none => none
    | some firstByte =>
      if firstByte < 128 then some (firstByte, 1)
      else if firstByte = 129 then
        if blob.length ≤ pos + 2 then some (0, 1)
        else
          match blob.get? (pos + 1), blob.get? (pos + 2) with
          | some b1, some b2 => some (b1 ||| (b2 <<< 8), 3)
          | _, _ => none
      else if firstByte = 130 then
        if blob.length ≤ pos + 4 then some (0, 1)
        else
          match blob.get? (pos + 1), blob.get? (pos + 2),
              blob.get? (pos + 3), blob.get? (pos + 4) with
          | some b1, some b2, some b3, some b4 =>
            some (b1 + b2 * 256 + b3 * 65536 + b4 * 16777216, 5)
          | _, _, _, _ => none
      else some (firstByte, 1)

/-- The per-character test of `isPrintableText`: printable ASCII, any code
unit above 127, or newline / carriage return / tab. -/
def isPrintableCodeUnit (c : Nat) : Bool :=
  (32 ≤ c && c ≤ 126) || 127 < c || c == 10 || c == 13 || c == 9

/-- `isPrintableText` from `src/messages/parser.ts`: true when the string is
nonempty and at least 80% of its characters are printable. -/
def isPrintableText (s : List Nat) : Bool :=
  if s.length = 0 then false
  else 4 * s.length ≤ 5 * s.countP isPrintableCodeUnit

/-- Length of the run of structural-padding bytes (NUL or below 0x20) at the
head of a list; the loop `while (pos < blob.length && (blob[pos] === 0 ||
blob[pos] < 32)) pos++` advances by exactly this much. -/
def padLen : List Nat → Nat
  | [] => 0
  | b :: rest => if b = 0 ∨ b < 32 then padLen rest + 1 else 0

/-- The padding-skip step of the marker strategies in `parseAttributedBody`. -/
def skipPadding (blob : List Nat) (pos : Nat) : Nat :=
  pos + padLen (blob.drop pos)

/-- `Buffer.prototype.indexOf` for a byte-sequence needle: index of the first
occurrence, `none` when absent. -/
def bufIndexOf : List Nat → List Nat → Option Nat
  | [], pat => if pat.isEmpty then some 0 else none
  | a :: t, pat =>
    if pat.isPrefixOf (a :: t) then some 0
    else (bufIndexOf t pat).map fun n => n + 1

/-- `buffer.includes(pat)` as used by the region noise filter. -/
def bufContains (hay pat : List Nat) : Bool :=
  (bufIndexOf hay pat).isSome

/-- One marker strategy of `parseAttributedBody` (strategies 1 and 2 in the
source are this function at the `NSString` and `NSMutableString` markers):
locate the marker, skip structural padding, decode a length, sanity-check
it, extract the indicated bytes and validate them with the printable-text
classifier. -/
def tryMarkerStrategy (marker blob : List Nat) : Option (List Nat) :=
  match bufIndexOf blob marker with
  | none => none
  | some markerIndex =>
    let pos := skipPadding blob (markerIndex + marker.length)
    if pos < blob.length then
      let dec := decodeTypedstreamLength blob pos
      if 0 < dec.1 ∧ dec.1 < 100000 ∧ pos + dec.2 + dec.1 ≤ blob.length then
        let extracted := (blob.drop (pos + dec.2)).take dec.1
        if isPrintableText extracted then some extracted else none
      else none
    else none

/-- The per-byte printability test of `extractPrintableRegions`: printable
ASCII, newline / carriage return / tab, or a UTF-8 multibyte lead byte. -/
def isPrintableRegionByte (b : Nat) : Bool :=
  (32 ≤ b && b ≤ 126) || b == 10 || b == 13 || b == 9 || (192 ≤ b && b ≤ 247)

/-- The push condition of the region scan: a region is recorded when its
length is at least 2 and it passes the printable-text classifier. -/
def regionQualifies (r : List Nat) : Bool :=
  2 ≤ r.length && isPrintableText r

/-- The scanning loop of `extractPrintableRegions`: walk the buffer tracking
the currently open printable run (`current`, empty when no run is open) and
record every maximal run that qualifies, including the final one. -/
def collectRegions : List Nat → List Nat → List (List Nat)
  | [], current => if regionQualifies current then [current] else []
  | b :: rest, current =>
    if isPrintableRegionByte b then collectRegions rest (current ++ [b])
    else
      (if regionQualifies current then [current] else []) ++ collectRegions rest []

/-- The noise filter of `extractPrintableRegions`: keep regions of length at
least 2 that do not start with `"NS"`, do not start with `"streamtyped"`,
and contain neither `"NSString"` nor `"NSMutableAttributedString"`. -/
def regionNoiseFilter (r : List Nat) : Bool :=
  2 ≤ r.length && !(nsClassBytes.isPrefixOf r) && !(streamtypedHeader.isPrefixOf r) &&
    !(bufContains r nsStringMarker) && !(bufContains r nsMutableAttributedMarker)

/-- `filteredRegions.reduce((a, b) => (a.length > b.length ? a : b))` on a
possibly empty list, returning `""` when empty as the source does. -/
def pickLongest : List (List Nat) → List Nat
  | [] => []
  | h :: t => t.foldl (fun a b => if b.length < a.length then a else b) h

/-- `extractPrintableRegions` from `src/messages/parser.ts`. -/
def extractPrintableRegions (blob : List Nat) : List Nat :=
  pickLongest ((collectRegions blob []).filter regionNoiseFilter)

/-- `parseAttributedBody` from `src/messages/parser.ts`.  `none` models a
`null` blob.  Nothing in the body can throw in the model, so the source's
`try`/`catch` wrapper has no separate representation. -/
def parseAttributedBody : Option (List Nat) → List Nat
  | none => []
  | some blob =>
    if blob.length = 0 then []
    else
      match tryMarkerStrategy nsStringMarker blob with
      | some t => t
      | none =>
        match tryMarkerStrategy nsMutableStringMarker blob with
        | some t => t
        | none =>
          if (bufIndexOf blob streamtypedHeader).isSome then
            let text := extractPrintableRegions blob
            if 0 < text.length then text
            else
              let fallbackText := extractPrintableRegions blob
              if 0 < fallbackText.length then fallbackText else []
          else
            let fallbackText := extractPrintableRegions blob
            if 0 < fallbackText.length then fallbackText else []

/-- ASCII whitespace test for the model of `String.prototype.trim`. -/
def isJsWhitespace (b : Nat) : Bool :=
  b == 9 || b == 10 || b == 11 || b == 12 || b == 13 || b == 32

/-- Model of `String.prototype.trim` (ASCII whitespace only, which covers the
texts the claims quantify over). -/
def jsTrim (s : List Nat) : List Nat :=
  ((s.dropWhile isJsWhitespace).reverse.dropWhile isJsWhitespace).reverse

/-- `getMessageText` from `src/messages/parser.ts`: prefer a present,
non-blank plain-text column; otherwise parse the blob.  The emptiness test
mirrors the source's `textColumn && textColumn.trim().length > 0` (an empty
string is falsy). -/
def getMessageText (textColumn attributedBody : Option (List Nat)) : List Nat :=
  match textColumn with
  | some t => if t ≠ [] ∧ 0 < (jsTrim t).length then t else parseAttributedBody attributedBody
  | none => parseAttributedBody attributedBody

/-- A JavaScript number that may be `NaN`, as produced by `new
Date(s).getTime()`: `nan` for an unparseable date string, `num ms` (integer
milliseconds since the Unix epoch) for a parseable one. -/
inductive JsNum where
  | nan : JsNum
  | num : Int → JsNum
deriving DecidableEq, Repr

/-- `macosTimestampToISO` from `src/messages/database.ts`: convert archive
nanoseconds (nullable) to the serialized instant, with `null` and the
sentinel `0` mapped to absent.  The instant is represented by its Unix
milliseconds; rendering an instant as an ISO-8601 string is injective, so
nothing about the claims is lost. -/
def macosTimestampToISO (nanoseconds : Option Int) : Option Int :=
  match nanoseconds with
  | none => none
  | some n => if n = 0 then none else some (n / 1000000 + 978307200000)

/-- `isoToMacosTimestamp` from `src/messages/database.ts`, applied to the
result of `new Date(isoString).getTime()`: `(getTime()/1000 - offset) * 1e9`
in exact arithmetic, with `NaN` (an unparseable date) propagating through
the arithmetic as the source's floating-point `NaN` does. -/
def isoToMacosTimestamp (parsedDate : JsNum) : JsNum :=
  match parsedDate with
  | .nan => .nan
  | .num ms => .num (ms * 1000000 - 978307200000000000)

/-- A row of the `message` table as selected by the service queries
(`m.ROWID, m.guid, m.text, m.attributedBody, m.date, m.is_from_me,
m.handle_id, m.cache_has_attachments, cmj.chat_id`). -/
structure MessageRow where
  rowid : Nat
  guid : List Nat
  text : Option (List Nat)
  attributedBody : Option (List Nat)
  date : Option Int
  isFromMeCol : Nat
  handleId : Nat
  cacheHasAttachments : Nat
  chatId : Option Nat
deriving DecidableEq, Repr

/-- The `Message` output record of the service (`rowToMessage`'s result).
Identifiers are kept numeric; the source stringifies them injectively. -/
structure Message where
  id : Nat
  guid : List Nat
  text : List Nat
  date : Int
  isFromMe : Bool
  chatId : Option Nat
  senderHandle : Option (List Nat)
  hasAttachments : Bool
deriving DecidableEq, Repr

/-- The read-only archive state the service queries run against: the message
rows and the `handle` table (`ROWID ↦ id`). -/
structure ChatDb where
  messages : List MessageRow
  handles : List (Nat × List Nat)
deriving DecidableEq, Repr

/-- `MessagesService.getHandleIdentifier`: `0` (falsy) gives `undefined`,
otherwise the handle table is consulted. -/
def getHandleIdentifier (db : ChatDb) (handleId : Nat) : Option (List Nat) :=
  if handleId = 0 then none
  else (db.handles.find? fun h => h.1 == handleId).map fun h => h.2

/-- `MessagesService.rowToMessage` from `src/messages/service.ts`.  `now` is
the value of `new Date().toISOString()` at call time, used by the source as
the fallback when `macosTimestampToISO` yields no instant. -/
def rowToMessage (db : ChatDb) (now : Int) (row : MessageRow) : Message :=
  { id := row.rowid
    guid := row.guid
    text := getMessageText row.text row.attributedBody
    date := (macosTimestampToISO row.date).getD now
    isFromMe := row.isFromMeCol == 1
    chatId := row.chatId
    senderHandle := if row.isFromMeCol = 0 then getHandleIdentifier db row.handleId else none
    hasAttachments := row.cacheHasAttachments == 1 }

/-- Comparison used to model `ORDER BY m.date DESC`: SQLite orders `NULL`
below every integer. -/
def sqlDateLt (a b : Option Int) : Bool :=
  match a, b with
  | none, none => false
  | none, some _ => true
  | some _, none => false
  | some x, some y => x < y

/-- Insertion step of the descending date sort. -/
def insertDateDesc (r : MessageRow) : List MessageRow → List MessageRow
  | [] => [r]
  | h :: t => if sqlDateLt h.date r.date then r :: h :: t else h :: insertDateDesc r t

/-- `ORDER BY m.date DESC` as an insertion sort. -/
def sortDateDesc : List MessageRow → List MessageRow
  | [] => []
  | h :: t => insertDateDesc h (sortDateDesc t)

/-- `AND cmj.chat_id = ?`: `NULL` never compares equal. -/
def passesChatFilter (chatId : Option Nat) (row : MessageRow) : Bool :=
  match chatId with
  | none => true
  | some c => row.chatId == some c

/-- `AND m.date < ?` where the bound is the converted `beforeDate`.  A `NaN`
bound is stored by SQLite as `NULL` and the comparison is then not true for
any row; a `NULL` column value also never satisfies the comparison. -/
def passesBeforeFilter (bound : Option JsNum) (row : MessageRow) : Bool :=
  match bound with
  | none => true
  | some .nan => false
  | some (.num b) =>
    match row.date with
    | none => false
    | some d => d < b

/-- `AND m.date > ?`, same conventions as `passesBeforeFilter`. -/
def passesAfterFilter (bound : Option JsNum) (row : MessageRow) : Bool :=
  match bound with
  | none => true
  | some .nan => false
  | some (.num b) =>
    match row.date with
    | none => false
    | some d => b < d

/-- `AND m.is_from_me = ?` with the boolean encoded as `1` / `0`. -/
def passesFromMeFilter (fromMe : Option Bool) (row : MessageRow) : Bool :=
  match fromMe with
  | none => true
  | some b => row.isFromMeCol == (if b then 1 else 0)

/-- The options object of `MessagesService.listMessages`.  `beforeDate` and
`afterDate` carry the result of `new Date(s).getTime()` on the caller's
string (`JsNum.nan` when the string is unparseable). -/
structure ListMessagesOptions where
  chatId : Option Nat
  limit : Option Nat
  beforeDate : Option JsNum
  afterDate : Option JsNum
  fromMe : Option Bool
deriving DecidableEq, Repr

/-- `MessagesService.listMessages` from `src/messages/service.ts`: compose
the optional filters with `AND`, order by date descending, apply the limit
(default 50) and map the rows through `rowToMessage`. -/
def listMessages (db : ChatDb) (now : Int) (opts : ListMessagesOptions) : List Message :=
  let lim := opts.limit.getD 50
  let before := opts.beforeDate.map isoToMacosTimestamp
  let after := opts.afterDate.map isoToMacosTimestamp
  let rows := db.messages.filter fun r =>
    passesChatFilter opts.chatId r && passesBeforeFilter before r &&
      passesAfterFilter after r && passesFromMeFilter opts.fromMe r
  ((sortDateDesc rows).take lim).map (rowToMessage db now)

/-- ASCII lowercasing, the folding SQLite's default `LIKE` applies. -/
def asciiLower (c : Nat) : Nat :=
  if 65 ≤ c ∧ c ≤ 90 then c + 32 else c

/-- SQLite `LIKE` matching (no `ESCAPE` clause): `%` (0x25) matches any
sequence, `_` (0x5F) matches one character, anything else matches
ASCII-case-insensitively. -/
def sqlLike : List Nat → List Nat → Bool
  | [], t => t.isEmpty
  | p :: ps, t =>
    if p = 37 then t.tails.any fun s => sqlLike ps s
    else
      match t with
      | [] => false
      | c :: cs => if p = 95 then sqlLike ps cs else asciiLower p == asciiLower c && sqlLike ps cs

/-- The search pattern `` `%${query}%` `` built by `searchMessages`. -/
def likePattern (query : List Nat) : List Nat :=
  37 :: query ++ [37]

/-- `MessagesService.searchMessages` from `src/messages/service.ts`: the
`WHERE` clause is `m.text LIKE '%query%'` (the raw plain-text column; a
`NULL` column never matches `LIKE`), optionally `AND cmj.chat_id = ?`. -/
def searchMessages (db : ChatDb) (now : Int) (query : List Nat) (chatId : Option Nat)
    (limit : Option Nat) : List Message :=
  let lim := limit.getD 50
  let pat := likePattern query
  let rows := db.messages.filter fun r =>
    (match r.text with
     | none => false
     | some t => sqlLike pat t) && passesChatFilter chatId r
  ((sortDateDesc rows).take lim).map (rowToMessage db now)

/-- The keys of `listMessagesSchema` in `src/messages/tools.ts`; the schema
is a zod object, which strips unknown keys when parsing tool parameters. -/
def listMessagesSchemaKeys : List String :=
  ["chatId", "limit", "beforeDate", "afterDate", "fromMe"]

/-- Zod's default unknown-key handling on object schemas: parsing keeps only
the declared keys. -/
def stripUnknownKeys (allowed : List String) (params : List (String × String)) :
    List (String × String) :=
  params.filter fun kv => allowed.contains kv.1

/-- Modelled from the claim wording of C2 (not present in the source): a
two-byte content marker `(0x01, 0x2B)` whose length is decoded directly
adjacent to the marker, with no padding-skip step. -/
def tryContentMarkerClaim (blob : List Nat) : Option (List Nat) :=
  match bufIndexOf blob [1, 43] with
  | none => none
  | some markerIndex =>
    let pos := markerIndex + 2
    if pos < blob.length then
      let dec := decodeTypedstreamLength blob pos
      if 0 < dec.1 ∧ dec.1 < 100000 ∧ pos + dec.2 + dec.1 ≤ blob.length then
        let extracted := (blob.drop (pos + dec.2)).take dec.1
        if isPrintableText extracted then some extracted else none
      else none
    else none

/-- Modelled from the claim wording of C2: the marker priority the claim
describes — content marker `(0x01, 0x2B)` first, then the generic legacy
string marker, then the mutable legacy string marker. -/
def claimMarkerExtractor (blob : List Nat) : Option (List Nat) :=
  match tryContentMarkerClaim blob with
  | some t => some t
  | none =>
    match tryMarkerStrategy nsStringMarker blob with
    | some t => some t
    | none => tryMarkerStrategy nsMutableStringMarker blob

/-- Modelled from the claim wording of C4: discard candidates that start with
the reserved class prefix or that equal/contain any known marker string. -/
def claimNoiseOk (r : List Nat) : Bool :=
  !(nsClassBytes.isPrefixOf r) && !(bufContains r nsStringMarker) &&
    !(bufContains r nsMutableAttributedMarker) && !(bufContains r streamtypedHeader)

/-- Modelled from the claim wording of C4: pick the longest candidate with
ties broken in favor of the first occurrence. -/
def pickLongestFirstOccurrence : List (List Nat) → List Nat
  | [] => []
  | h :: t => t.foldl (fun a b => if a.length < b.length then b else a) h

/-- Modelled from the claim wording of C4: the region scan with the claim's
noise filter and first-occurrence tie-break. -/
def extractPrintableRegionsClaim (blob : List Nat) : List Nat :=
  pickLongestFirstOccurrence
    ((collectRegions blob []).filter fun r =>
      2 ≤ r.length && isPrintableText r && claimNoiseOk r)

/-- The repo test fixture: 5 NUL bytes, `"NSString"`, 5 NUL bytes, the
single-byte length 50, the text `"This is the fallback text from the
attributed body"`, 5 NUL bytes. -/
def fallbackBlob : List Nat :=
  [0, 0, 0, 0, 0, 78, 83, 83, 116, 114, 105, 110, 103, 0, 0, 0, 0, 0, 50, 84, 104, 105,
   115, 32, 105, 115, 32, 116, 104, 101, 32, 102, 97, 108, 108, 98, 97, 99, 107, 32, 116,
   101, 120, 116, 32, 102, 114, 111, 109, 32, 116, 104, 101, 32, 97, 116, 116, 114, 105,
   98, 117, 116, 101, 100, 32, 98, 111, 100, 121, 0, 0, 0, 0, 0]

/-- Byte sequence of the query string `"fallback"`. -/
def fallbackQuery : List Nat := [102, 97, 108, 108, 98, 97, 99, 107]

/-- A message row whose text lives only in the `attributedBody` blob
(`text` column is `NULL`). -/
def blobOnlyRow : MessageRow :=
  { rowid := 1, guid := [103], text := none, attributedBody := some fallbackBlob,
    date := some 5, isFromMeCol := 1, handleId := 0, cacheHasAttachments := 0,
    chatId := some 9 }

/-- A message row with a plain text column `"hi"`. -/
def plainRow : MessageRow :=
  { rowid := 2, guid := [104], text := some [104, 105], attributedBody := none,
    date := some 6, isFromMeCol := 1, handleId := 0, cacheHasAttachments := 0,
    chatId := some 9 }

/-- A one-row archive whose single message is only recoverable from the blob. -/
def blobOnlyDb : ChatDb := { messages := [blobOnlyRow], handles := [] }

/-- A one-row archive with a plain-text message. -/
def plainDb : ChatDb := { messages := [plainRow], handles := [] }

/-! ### Helper lemmas -/

theorem testBit_two_pow_mul_add {x : Nat} (y n i : Nat) (hx : x < 2 ^ n) :
    Nat.testBit (2 ^ n * y + x) i = if i < n then Nat.testBit x i else Nat.testBit y (i - n) := by
  rcases Nat.lt_or_ge i n with h | h
  · rw [if_pos h, Nat.testBit_to_div_mod, Nat.testBit_to_div_mod]
    have hsplit : (2 : Nat) ^ n * y = 2 ^ i * (2 ^ (n - i) * y) := by
      rw [← Nat.mul_assoc, ← Nat.pow_add]
      congr 2
      omega
    have hdiv : (2 ^ n * y + x) / 2 ^ i = 2 ^ (n - i) * y + x / 2 ^ i := by
      rw [hsplit, Nat.add_comm, Nat.add_mul_div_left _ _ (Nat.pos_pow_of_pos i (by omega)),
        Nat.add_comm]
    rw [hdiv]
    have heven : 2 ^ (n - i) * y % 2 = 0 := by
      have h2 : (2 : Nat) ∣ 2 ^ (n - i) * y :=
        Dvd.dvd.mul_right (dvd_pow_self 2 (by omega)) y
      omega
    have hmod : (2 ^ (n - i) * y + x / 2 ^ i) % 2 = x / 2 ^ i % 2 := by omega
    rw [hmod]
  · rw [if_neg (by omega), Nat.testBit_to_div_mod, Nat.testBit_to_div_mod]
    have hdiv : (2 ^ n * y + x) / 2 ^ i = y / 2 ^ (i - n) := by
      rw [show (2 : Nat) ^ i = 2 ^ n * 2 ^ (i - n) by rw [← Nat.pow_add]; congr 1; omega,
        ← Nat.div_div_eq_div_mul]
      congr 1
      rw [Nat.add_comm, Nat.add_mul_div_left _ _ (Nat.pos_pow_of_pos n (by omega)),
        Nat.div_eq_of_lt hx, Nat.zero_add]
    rw [hdiv]

theorem byte_lor_shiftLeft {x : Nat} (y : Nat) (hx : x < 256) :
    x ||| (y <<< 8) = x + 256 * y := by
  apply Nat.eq_of_testBit_eq
  intro i
  rw [Nat.testBit_lor, Nat.testBit_shiftLeft,
    show x + 256 * y = 2 ^ 8 * y + x by ring,
    testBit_two_pow_mul_add y 8 i (by omega)]
  rcases Nat.lt_or_ge i 8 with h | h
  · simp [h, Nat.not_le.mpr h]
  · have hxf : Nat.testBit x i = false :=
      Nat.testBit_eq_false_of_lt (lt_of_lt_of_le hx (by
        calc (256 : Nat) = 2 ^ 8 := by norm_num
        _ ≤ 2 ^ i := Nat.pow_le_pow_right (by omega) h))
    simp [h, hxf, Nat.not_lt.mpr h]

theorem get?_eq_some_getD (l : List Nat) (n : Nat) (h : n < l.length) :
    l.get? n = some (l.getD n 0) := by
  rw [List.get?_eq_getElem?, List.getElem?_eq_getElem h, List.getD_eq_getElem l 0 h]

theorem getD_lt_of_mem {l : List Nat} (hb : ∀ b ∈ l, b < 256) {n : Nat} (h : n < l.length) :
    l.getD n 0 < 256 := by
  rw [List.getD_eq_getElem l 0 h]
  exact hb _ (List.getElem_mem h)

/-! ### Claim C1 -/

/-- Claim C1: for every byte buffer and read position, `decodeTypedstreamLength`
returns `(0, 0)` past the end; `(b, 1)` for a first byte `b < 0x80`; for marker
`0x81` the next two bytes as an unsigned little-endian 16-bit value with 3
consumed when at least two more bytes remain and `(0, 1)` otherwise; for marker
`0x82` the next four bytes as an unsigned little-endian 32-bit value with 5
consumed when at least four more bytes remain and `(0, 1)` otherwise; `(b, 1)`
for any other marker byte; and (final conjunct) the bounds-checked reader
agrees everywhere, so the decoder never throws and never reads past the
buffer end. -/
theorem decodeTypedstreamLength_spec (blob : List Nat) (pos : Nat)
    (hbytes : ∀ b ∈ blob, b < 256) :
    (blob.length ≤ pos → decodeTypedstreamLength blob pos = (0, 0))
    ∧ (pos < blob.length → blob.getD pos 0 < 128 →
        decodeTypedstreamLength blob pos = (blob.getD pos 0, 1))
    ∧ (pos < blob.length → blob.getD pos 0 = 129 → pos + 2 < blob.length →
        decodeTypedstreamLength blob pos =
          (blob.getD (pos + 1) 0 + 256 * blob.getD (pos + 2) 0, 3))
    ∧ (pos < blob.length → blob.getD pos 0 = 129 → blob.length ≤ pos + 2 →
        decodeTypedstreamLength blob pos = (0, 1))
    ∧ (pos < blob.length → blob.getD pos 0 = 130 → pos + 4 < blob.length →
        decodeTypedstreamLength blob pos =
          (blob.getD (pos + 1) 0 + blob.getD (pos + 2) 0 * 256 +
            blob.getD (pos + 3) 0 * 65536 + blob.getD (pos + 4) 0 * 16777216, 5))
    ∧ (pos < blob.length → blob.getD pos 0 = 130 → blob.length ≤ pos + 4 →
        decodeTypedstreamLength blob pos = (0, 1))
    ∧ (pos < blob.length → 128 ≤ blob.getD pos 0 → blob.getD pos 0 ≠ 129 →
        blob.getD pos 0 ≠ 130 → decodeTypedstreamLength blob pos = (blob.getD pos 0, 1))
    ∧ decodeTypedstreamLengthChecked blob pos = some (decodeTypedstreamLength blob pos) := by
  refine ⟨?_, ?_, ?_, ?_, ?_, ?_, ?_, ?_⟩
  · intro h
    simp only [decodeTypedstreamLength, if_pos h]
  · intro h hlt
    simp only [decodeTypedstreamLength, if_neg (by omega : ¬ blob.length ≤ pos), if_pos hlt]
  · intro h h129 h2
    have hb1 : blob.getD (pos + 1) 0 < 256 := getD_lt_of_mem hbytes (by omega)
    simp only [decodeTypedstreamLength, if_neg (by omega : ¬ blob.length ≤ pos),
      if_neg (by omega : ¬ blob.getD pos 0 < 128), if_pos h129,
      if_neg (by omega : ¬ blob.length ≤ pos + 2), byte_lor_shiftLeft _ hb1]
  · intro h h129 h2
    simp only [decodeTypedstreamLength, if_neg (by omega : ¬ blob.length ≤ pos),
      if_neg (by omega : ¬ blob.getD pos 0 < 128), if_pos h129, if_pos h2]
  · intro h h130 h4
    simp only [decodeTypedstreamLength, if_neg (by omega : ¬ blob.length ≤ pos),
      if_neg (by omega : ¬ blob.getD pos 0 < 128), if_neg (by omega : blob.getD pos 0 ≠ 129),
      if_pos h130, if_neg (by omega : ¬ blob.length ≤ pos + 4), readUInt32LE]
  · intro h h130 h4
    simp only [decodeTypedstreamLength, if_neg (by omega : ¬ blob.length ≤ pos),
      if_neg (by omega : ¬ blob.getD pos 0 < 128), if_neg (by omega : blob.getD pos 0 ≠ 129),
      if_pos h130, if_pos h4]
  · intro h hge h129 h130
    simp only [decodeTypedstreamLength, if_neg (by omega : ¬ blob.length ≤ pos),
      if_neg (by omega : ¬ blob.getD pos 0 < 128), if_neg h129, if_neg h130]
  · by_cases h : blob.length ≤ pos
    · simp only [decodeTypedstreamLength, decodeTypedstreamLengthChecked, if_pos h]
    · have hget := get?_eq_some_getD blob pos (by omega)
      by_cases h1 : blob.getD pos 0 < 128
      · simp only [decodeTypedstreamLength, decodeTypedstreamLengthChecked, if_neg h, hget,
          if_pos h1]
      · by_cases h2 : blob.getD pos 0 = 129
        · by_cases h3 : blob.length ≤ pos + 2
          · simp only [decodeTypedstreamLength, decodeTypedstreamLengthChecked, if_neg h, hget,
              if_neg h1, if_pos h2, if_pos h3]
          · simp only [decodeTypedstreamLength, decodeTypedstreamLengthChecked, if_neg h, hget,
              if_neg h1, if_pos h2, if_neg h3,
              get?_eq_some_getD blob (pos + 1) (by omega),
              get?_eq_some_getD blob (pos + 2) (by omega)]
        · by_cases h4 : blob.getD pos 0 = 130
          · by_cases h5 : blob.length ≤ pos + 4
            · simp only [decodeTypedstreamLength, decodeTypedstreamLengthChecked, if_neg h, hget,
                if_neg h1, if_neg h2, if_pos h4, if_pos h5]
            · simp only [decodeTypedstreamLength, decodeTypedstreamLengthChecked, if_neg h, hget,
                if_neg h1, if_neg h2, if_pos h4, if_neg h5,
                get?_eq_some_getD blob (pos + 1) (by omega),
                get?_eq_some_getD blob (pos + 2) (by omega),
                get?_eq_some_getD blob (pos + 3) (by omega),
                get?_eq_some_getD blob (pos + 4) (by omega), readUInt32LE]
          · simp only [decodeTypedstreamLength, decodeTypedstreamLengthChecked, if_neg h, hget,
              if_neg h1, if_neg h2, if_neg h4]

/-- Witness for C1 at the spec's own test vector `[0x81, 0x2C, 0x01]`. -/
theorem decodeTypedstreamLength_spec_witness :
    decodeTypedstreamLength [129, 44, 1] 0 = (300, 3) :=
  (decodeTypedstreamLength_spec [129, 44, 1] 0 (by decide)).2.2.1 (by decide) (by decide)
    (by decide)

theorem length_eq_zero_of_not_pos {l : List Nat} (h : ¬ 0 < l.length) : l = [] := by
  cases l with
  | nil => rfl
  | cons a t => exact absurd (by simp) h

/-- The four strategies of `parseAttributedBody` collapse to: first marker
strategy, second marker strategy, then the printable-region scan (the
`streamtyped` check of strategy 3 is immaterial because strategy 4 computes
the same fallback). -/
theorem parseAttributedBody_eq_orElse (blob : List Nat) :
    parseAttributedBody (some blob) =
      (match tryMarkerStrategy nsStringMarker blob with
       | some t => t
       | none =>
         match tryMarkerStrategy nsMutableStringMarker blob with
         | some t => t
         | none => extractPrintableRegions blob) := by
  by_cases h0 : blob.length = 0
  · have hnil : blob = [] := List.length_eq_zero.mp h0
    subst hnil
    rfl
  · simp only [parseAttributedBody, if_neg h0]
    cases h1 : tryMarkerStrategy nsStringMarker blob with
    | some t => rfl
    | none =>
      cases h2 : tryMarkerStrategy nsMutableStringMarker blob with
      | some t => rfl
      | none =>
        by_cases h3 : (bufIndexOf blob streamtypedHeader).isSome = true
        · rw [if_pos h3]
          by_cases h4 : 0 < (extractPrintableRegions blob).length
          · rw [if_pos h4]
          · rw [if_neg h4, if_neg h4, length_eq_zero_of_not_pos h4]
        · rw [if_neg h3]
          by_cases h4 : 0 < (extractPrintableRegions blob).length
          · rw [if_pos h4]
          · rw [if_neg h4, length_eq_zero_of_not_pos h4]

/-! ### Claim C2 -/

/-- Counterexample to C2 as stated: on a blob that begins with the two-byte
content marker `(0x01, 0x2B)` followed by a well-formed length-prefixed
string `"Hi"` and later printable bytes `"world!"`, the extractor the claim
describes returns `"Hi"`, but the code's `parseAttributedBody` has no
content-marker strategy at all and returns `"world!"` via the region scan. -/
theorem parseAttributedBody_no_content_marker :
    claimMarkerExtractor [1, 43, 2, 72, 105, 0, 119, 111, 114, 108, 100, 33] = some [72, 105]
    ∧ parseAttributedBody (some [1, 43, 2, 72, 105, 0, 119, 111, 114, 108, 100, 33]) =
        [119, 111, 114, 108, 100, 33] := by
  decide

/-- Claim C2 (amended): the marker-based extraction tries the legacy class
marker `"NSString"` first and the legacy class marker `"NSMutableString"`
second — each strategy skipping a run of bytes that are NUL or below 0x20
before decoding the length (the `skipPadding` step inside
`tryMarkerStrategy`) — and otherwise falls back to the printable-region
scan; there is no two-byte `(0x01, 0x2B)` content-marker strategy. -/
theorem parseAttributedBody_marker_order (blob : List Nat) :
    parseAttributedBody (some blob) =
      (match tryMarkerStrategy nsStringMarker blob with
       | some t => t
       | none =>
         match tryMarkerStrategy nsMutableStringMarker blob with
         | some t => t
         | none => extractPrintableRegions blob) :=
  parseAttributedBody_eq_orElse blob

/-! ### Claim C4 -/

theorem foldl_pick_le (t : List (List Nat)) (h : List Nat) :
    h.length ≤ (t.foldl (fun a b => if b.length < a.length then a else b) h).length := by
  induction t generalizing h with
  | nil => exact Nat.le_refl _
  | cons b t ih =>
    refine Nat.le_trans ?_ (ih (if b.length < h.length then h else b))
    by_cases hc : b.length < h.length
    · rw [if_pos hc]
    · rw [if_neg hc]
      omega

theorem foldl_pick_mem (t : List (List Nat)) (h : List Nat) :
    t.foldl (fun a b => if b.length < a.length then a else b) h ∈ h :: t := by
  induction t generalizing h with
  | nil => exact List.mem_singleton.mpr rfl
  | cons b t ih =>
    simp only [List.foldl_cons]
    have := ih (if b.length < h.length then h else b)
    rcases List.mem_cons.mp this with heq | hmem
    · rw [heq]
      by_cases hc : b.length < h.length
      · rw [if_pos hc]
        exact List.mem_cons_self _ _
      · rw [if_neg hc]
        exact List.mem_cons.mpr (Or.inr (List.mem_cons_self _ _))
    · exact List.mem_cons.mpr (Or.inr (List.mem_cons.mpr (Or.inr hmem)))

theorem foldl_pick_max (t : List (List Nat)) (h : List Nat) :
    ∀ c ∈ h :: t,
      c.length ≤ (t.foldl (fun a b => if b.length < a.length then a else b) h).length := by
  induction t generalizing h with
  | nil =>
    intro c hc
    rw [List.mem_singleton.mp hc]
    exact Nat.le_refl _
  | cons b t ih =>
    intro c hc
    simp only [List.foldl_cons]
    have hpick : h.length ≤ (if b.length < h.length then h else b).length ∧
        b.length ≤ (if b.length < h.length then h else b).length := by
      by_cases hcomp : b.length < h.length
      · rw [if_pos hcomp]
        omega
      · rw [if_neg hcomp]
        omega
    have htail := foldl_pick_le t (if b.length < h.length then h else b)
    rcases List.mem_cons.mp hc with hceq | hcmem
    · subst hceq
      omega
    · rcases List.mem_cons.mp hcmem with hceq | hcmem'
      · subst hceq
        omega
      · exact ih _ c (List.mem_cons.mpr (Or.inr hcmem'))

theorem foldl_pick_last (t : List (List Nat)) (h : List Nat) :
    ∃ pre post,
      h :: t = pre ++ (t.foldl (fun a b => if b.length < a.length then a else b) h) :: post
      ∧ (∀ c ∈ post,
          c.length < (t.foldl (fun a b => if b.length < a.length then a else b) h).length) := by
  induction t generalizing h with
  | nil => exact ⟨[], [], rfl, by simp⟩
  | cons b t ih =>
    obtain ⟨pre, post, hdec, hpost⟩ := ih (if b.length < h.length then h else b)
    have hfold : (b :: t).foldl (fun a b => if b.length < a.length then a else b) h =
        t.foldl (fun a b => if b.length < a.length then a else b)
          (if b.length < h.length then h else b) := by
      simp only [List.foldl_cons]
    by_cases hc : b.length < h.length
    · rw [if_pos hc] at hdec hpost hfold
      cases pre with
      | nil =>
        simp only [List.nil_append, List.cons.injEq] at hdec
        refine ⟨[], b :: t, ?_, ?_⟩
        · rw [hfold, List.nil_append, ← hdec.1]
        · intro c hcmem
          rw [hfold]
          have hlen : h.length =
              (t.foldl (fun a b => if b.length < a.length then a else b) h).length := by
            rw [← hdec.1]
          rcases List.mem_cons.mp hcmem with hceq | hcmem'
          · subst hceq
            omega
          · have := hpost c (hdec.2 ▸ hcmem')
            exact this
      | cons x xs =>
        simp only [List.cons_append, List.cons.injEq] at hdec
        refine ⟨h :: b :: xs, post, ?_, ?_⟩
        · rw [hfold]
          generalize hgen :
            List.foldl (fun a b => if b.length < a.length then a else b) h t = r at hdec ⊢
          rw [hdec.2]
          simp
        · intro c hcmem
          rw [hfold]
          exact hpost c hcmem
    · rw [if_neg hc] at hdec hpost hfold
      refine ⟨h :: pre, post, ?_, ?_⟩
      · rw [hfold]
        simp only [List.cons_append]
        rw [hdec]
      · intro c hcmem
        rw [hfold]
        exact hpost c hcmem

theorem collectRegions_qualifies :
    ∀ (rest current : List Nat), ∀ r ∈ collectRegions rest current, regionQualifies r = true := by
  intro rest
  induction rest with
  | nil =>
    intro current r hr
    simp only [collectRegions] at hr
    by_cases hq : regionQualifies current = true
    · rw [if_pos hq] at hr
      rw [List.mem_singleton.mp hr]
      exact hq
    · rw [if_neg hq] at hr
      exact absurd hr (List.not_mem_nil r)
  | cons b rest ih =>
    intro current r hr
    simp only [collectRegions] at hr
    by_cases hb : isPrintableRegionByte b = true
    · rw [if_pos hb] at hr
      exact ih _ r hr
    · rw [if_neg hb] at hr
      rcases List.mem_append.mp hr with hl | hrr
      · by_cases hq : regionQualifies current = true
        · rw [if_pos hq] at hl
          rw [List.mem_singleton.mp hl]
          exact hq
        · rw [if_neg hq] at hl
          exact absurd hl (List.not_mem_nil r)
      · exact ih _ r hrr

theorem collectRegions_bytes :
    ∀ (rest current : List Nat), (∀ x ∈ current, isPrintableRegionByte x = true) →
      ∀ r ∈ collectRegions rest current, ∀ x ∈ r, isPrintableRegionByte x = true := by
  intro rest
  induction rest with
  | nil =>
    intro current hcur r hr
    simp only [collectRegions] at hr
    by_cases hq : regionQualifies current = true
    · rw [if_pos hq] at hr
      rw [List.mem_singleton.mp hr]
      exact hcur
    · rw [if_neg hq] at hr
      exact absurd hr (List.not_mem_nil r)
  | cons b rest ih =>
    intro current hcur r hr
    simp only [collectRegions] at hr
    by_cases hb : isPrintableRegionByte b = true
    · rw [if_pos hb] at hr
      refine ih (current ++ [b]) ?_ r hr
      intro x hx
      rcases List.mem_append.mp hx with hxl | hxr
      · exact hcur x hxl
      · rw [List.mem_singleton.mp hxr]
        exact hb
    · rw [if_neg hb] at hr
      rcases List.mem_append.mp hr with hl | hrr
      · by_cases hq : regionQualifies current = true
        · rw [if_pos hq] at hl
          rw [List.mem_singleton.mp hl]
          exact hcur
        · rw [if_neg hq] at hl
          exact absurd hl (List.not_mem_nil r)
      · exact ih [] (by simp) r hrr

theorem collectRegions_segment :
    ∀ (rest current r : List Nat), r ∈ collectRegions rest current →
      ∃ p q, current ++ rest = p ++ r ++ q := by
  intro rest
  induction rest with
  | nil =>
    intro current r hr
    simp only [collectRegions] at hr
    by_cases hq : regionQualifies current = true
    · rw [if_pos hq] at hr
      rw [List.mem_singleton.mp hr]
      exact ⟨[], [], by simp⟩
    · rw [if_neg hq] at hr
      exact absurd hr (List.not_mem_nil r)
  | cons b rest ih =>
    intro current r hr
    simp only [collectRegions] at hr
    by_cases hb : isPrintableRegionByte b = true
    · rw [if_pos hb] at hr
      obtain ⟨p, q, hpq⟩ := ih (current ++ [b]) r hr
      refine ⟨p, q, ?_⟩
      rw [← hpq]
      simp
    · rw [if_neg hb] at hr
      rcases List.mem_append.mp hr with hl | hrr
      · by_cases hq : regionQualifies current = true
        · rw [if_pos hq] at hl
          rw [List.mem_singleton.mp hl]
          exact ⟨[], b :: rest, by simp⟩
        · rw [if_neg hq] at hl
          exact absurd hl (List.not_mem_nil r)
      · obtain ⟨p, q, hpq⟩ := ih [] r hrr
        refine ⟨current ++ b :: p, q, ?_⟩
        simp only [List.nil_append] at hpq
        rw [hpq]
        simp

/-- Counterexample to C4 as stated: (i) on the blob `"ab" 0x00 "cd"` the two
surviving candidates `"ab"` and `"cd"` tie in length and the code returns the
later `"cd"`, while the claim's first-occurrence tie-break returns `"ab"`;
(ii) on a blob whose single candidate region contains (but does not start
with) `"streamtyped"`, the code keeps and returns it, while the claim's
"does not equal or contain the known marker strings" filter discards it and
returns the empty string. -/
theorem extractPrintableRegions_claim_counterexample :
    extractPrintableRegions [97, 98, 0, 99, 100] = [99, 100]
    ∧ extractPrintableRegionsClaim [97, 98, 0, 99, 100] = [97, 98]
    ∧ extractPrintableRegions
        [0, 120, 120, 32, 115, 116, 114, 101, 97, 109, 116, 121, 112, 101, 100, 32, 121, 121, 0] =
        [120, 120, 32, 115, 116, 114, 101, 97, 109, 116, 121, 112, 101, 100, 32, 121, 121]
    ∧ extractPrintableRegionsClaim
        [0, 120, 120, 32, 115, 116, 114, 101, 97, 109, 116, 121, 112, 101, 100, 32, 121, 121, 0] =
        [] := by
  decide

/-- Claim C4 (amended): `extractPrintableRegions` returns the empty string
when no scanned region survives the noise filter; otherwise it returns a
surviving candidate of maximal length, where the survivors are exactly the
maximal contiguous printable runs of the blob of length at least 2 that pass
the printable-text classifier, do not start with `"NS"` or `"streamtyped"`,
and contain neither `"NSString"` nor `"NSMutableAttributedString"` — and
ties between equally long survivors are broken in favor of the *last*
occurrence (every survivor after the returned one is strictly shorter). -/
theorem extractPrintableRegions_spec (blob : List Nat) :
    ((collectRegions blob []).filter regionNoiseFilter = [] →
      extractPrintableRegions blob = [])
    ∧ ((collectRegions blob []).filter regionNoiseFilter ≠ [] →
        extractPrintableRegions blob ∈ (collectRegions blob []).filter regionNoiseFilter
        ∧ (∀ c ∈ (collectRegions blob []).filter regionNoiseFilter,
            c.length ≤ (extractPrintableRegions blob).length)
        ∧ ∃ pre post,
            (collectRegions blob []).filter regionNoiseFilter =
              pre ++ extractPrintableRegions blob :: post
            ∧ ∀ c ∈ post, c.length < (extractPrintableRegions blob).length)
    ∧ (∀ r ∈ (collectRegions blob []).filter regionNoiseFilter,
        2 ≤ r.length ∧ isPrintableText r = true
        ∧ nsClassBytes.isPrefixOf r = false
        ∧ streamtypedHeader.isPrefixOf r = false
        ∧ bufContains r nsStringMarker = false
        ∧ bufContains r nsMutableAttributedMarker = false
        ∧ (∀ x ∈ r, isPrintableRegionByte x = true)
        ∧ ∃ p q, blob = p ++ r ++ q) := by
  refine ⟨?_, ?_, ?_⟩
  · intro h
    simp only [extractPrintableRegions, h, pickLongest]
  · intro hne
    cases hflt : (collectRegions blob []).filter regionNoiseFilter with
    | nil => exact absurd hflt hne
    | cons hd tl =>
      have hext : extractPrintableRegions blob =
          tl.foldl (fun a b => if b.length < a.length then a else b) hd := by
        simp only [extractPrintableRegions, hflt, pickLongest]
      refine ⟨?_, ?_, ?_⟩
      · rw [hext]
        exact foldl_pick_mem tl hd
      · intro c hc
        rw [hext]
        exact foldl_pick_max tl hd c hc
      · obtain ⟨pre, post, hdec, hpost⟩ := foldl_pick_last tl hd
        refine ⟨pre, post, ?_, ?_⟩
        · rw [hext]
          exact hdec
        · intro c hc
          rw [hext]
          exact hpost c hc
  · intro r hr
    obtain ⟨hmem, hfilter⟩ := List.mem_filter.mp hr
    have hqual := collectRegions_qualifies blob [] r hmem
    simp only [regionQualifies, Bool.and_eq_true, decide_eq_true_eq] at hqual
    simp only [regionNoiseFilter, Bool.and_eq_true, Bool.not_eq_true',
      decide_eq_true_eq] at hfilter
    have hbytes := collectRegions_bytes blob [] (by simp) r hmem
    obtain ⟨p, q, hpq⟩ := collectRegions_segment blob [] r hmem
    simp only [List.nil_append] at hpq
    exact ⟨hqual.1, hqual.2, hfilter.1.1.1.2, hfilter.1.1.2, hfilter.1.2, hfilter.2,
      hbytes, p, q, hpq⟩

/-- Witness for C4 (amended) on the tie blob `"ab" 0x00 "cd"`: the survivors
are `["ab", "cd"]`, the result `"cd"` is a longest survivor and everything
after it is strictly shorter. -/
theorem extractPrintableRegions_spec_witness :
    extractPrintableRegions [97, 98, 0, 99, 100] ∈
      (collectRegions [97, 98, 0, 99, 100] []).filter regionNoiseFilter
    ∧ (∀ c ∈ (collectRegions [97, 98, 0, 99, 100] []).filter regionNoiseFilter,
        c.length ≤ (extractPrintableRegions [97, 98, 0, 99, 100]).length)
    ∧ ∃ pre post,
        (collectRegions [97, 98, 0, 99, 100] []).filter regionNoiseFilter =
          pre ++ extractPrintableRegions [97, 98, 0, 99, 100] :: post
        ∧ ∀ c ∈ post, c.length < (extractPrintableRegions [97, 98, 0, 99, 100]).length :=
  (extractPrintableRegions_spec [97, 98, 0, 99, 100]).2.1 (by decide)

/-! ### Claim C10 -/

/-- Claim C10: any fallback candidate whose text begins with `"NS"` is
unconditionally discarded by the region noise filter, so the scanner's
result never starts with `"NS"`; in particular a blob whose only printable
content is the genuine text `"NSA meeting at 5"` (recoverable only via the
fallback scanner) resolves to the empty string at `getMessageText`. -/
theorem extractPrintableRegions_ns_discard :
    (∀ blob : List Nat, nsClassBytes.isPrefixOf (extractPrintableRegions blob) = false)
    ∧ getMessageText none
        (some ([0, 0] ++
          [78, 83, 65, 32, 109, 101, 101, 116, 105, 110, 103, 32, 97, 116, 32, 53] ++ [0])) =
        [] := by
  constructor
  · intro blob
    cases hflt : (collectRegions blob []).filter regionNoiseFilter with
    | nil =>
      have hnil : extractPrintableRegions blob = [] := by
        simp only [extractPrintableRegions, hflt, pickLongest]
      rw [hnil]
      decide
    | cons hd tl =>
      have hext : extractPrintableRegions blob =
          tl.foldl (fun a b => if b.length < a.length then a else b) hd := by
        simp only [extractPrintableRegions, hflt, pickLongest]
      have hmem : extractPrintableRegions blob ∈
          (collectRegions blob []).filter regionNoiseFilter := by
        rw [hflt, hext]
        exact foldl_pick_mem tl hd
      have hfilter := (List.mem_filter.mp hmem).2
      simp only [regionNoiseFilter, Bool.and_eq_true, Bool.not_eq_true'] at hfilter
      exact hfilter.1.1.1.2
  · decide

/-! ### Claim C3 -/

theorem bufIndexOf_zero_of_isPrefixOf {hay pat : List Nat} (h : pat.isPrefixOf hay = true) :
    bufIndexOf hay pat = some 0 := by
  cases hay with
  | nil =>
    cases pat with
    | nil => rfl
    | cons a t => simp [List.isPrefixOf] at h
  | cons a t => simp [bufIndexOf, h]

theorem isPrefixOf_append_self (l r : List Nat) : l.isPrefixOf (l ++ r) = true :=
  Iff.mpr List.isPrefixOf_iff_prefix (List.prefix_append l r)

theorem drop_eight_marker (rest : List Nat) :
    (nsStringMarker ++ rest).drop 8 = rest :=
  List.drop_left nsStringMarker rest

theorem tryMarkerStrategy_synthetic (b0 : Nat) (hrest text : List Nat)
    (hb0 : ¬ (b0 = 0 ∨ b0 < 32))
    (hdecode : decodeTypedstreamLength (nsStringMarker ++ (b0 :: hrest) ++ text) 8 =
      (text.length, (b0 :: hrest).length))
    (hpos : 0 < text.length) (hmax : text.length < 100000)
    (hprint : isPrintableText text = true) :
    tryMarkerStrategy nsStringMarker (nsStringMarker ++ (b0 :: hrest) ++ text) = some text := by
  have hassoc : nsStringMarker ++ (b0 :: hrest) ++ text =
      nsStringMarker ++ ((b0 :: hrest) ++ text) := by
    simp
  have hidx : bufIndexOf (nsStringMarker ++ (b0 :: hrest) ++ text) nsStringMarker = some 0 := by
    rw [hassoc]
    exact bufIndexOf_zero_of_isPrefixOf (isPrefixOf_append_self _ _)
  have hdrop8 : (nsStringMarker ++ (b0 :: hrest) ++ text).drop 8 = (b0 :: hrest) ++ text := by
    rw [hassoc]
    exact drop_eight_marker _
  have hskip : skipPadding (nsStringMarker ++ (b0 :: hrest) ++ text) 8 = 8 := by
    simp only [skipPadding, hdrop8, List.cons_append, padLen, if_neg hb0]
  have hblen : (nsStringMarker ++ (b0 :: hrest) ++ text).length =
      9 + hrest.length + text.length := by
    simp [nsStringMarker]
    omega
  have hdropLen : (nsStringMarker ++ (b0 :: hrest) ++ text).drop (8 + (b0 :: hrest).length) =
      text := by
    have : nsStringMarker ++ (b0 :: hrest) ++ text =
        (nsStringMarker ++ (b0 :: hrest)) ++ text := by simp
    rw [this]
    have hlen : (nsStringMarker ++ (b0 :: hrest)).length = 8 + (b0 :: hrest).length := by
      simp [nsStringMarker]
      omega
    rw [← hlen]
    exact List.drop_left _ _
  simp only [tryMarkerStrategy, hidx]
  rw [show (0 + nsStringMarker.length : Nat) = 8 from rfl, hskip]
  rw [if_pos (by rw [hblen]; omega)]
  rw [hdecode]
  rw [if_pos (by refine ⟨hpos, hmax, ?_⟩; rw [hblen]; simp; omega)]
  rw [hdropLen, List.take_length, if_pos hprint]

theorem getD_in_marker_block (hdr text : List Nat) (n : Nat) (hn : n < 8 + hdr.length) :
    (nsStringMarker ++ hdr ++ text).getD n 0 = (nsStringMarker ++ hdr).getD n 0 := by
  have : nsStringMarker ++ hdr ++ text = (nsStringMarker ++ hdr) ++ text := by simp
  rw [this]
  exact List.getD_append _ _ _ _ (by simp [nsStringMarker]; omega)

theorem decode_synthetic_255 (text : List Nat) :
    decodeTypedstreamLength (nsStringMarker ++ [255] ++ text) 8 = (255, 1) := by
  have hblen : (nsStringMarker ++ [255] ++ text).length = 9 + text.length := by
    simp [nsStringMarker]
    omega
  have h8 : (nsStringMarker ++ [255] ++ text).getD 8 0 = 255 := by
    rw [getD_in_marker_block _ _ _ (by simp)]
    decide
  simp only [decodeTypedstreamLength, h8]
  rw [if_neg (by omega), if_neg (by norm_num), if_neg (by norm_num), if_neg (by norm_num)]

theorem decode_synthetic_300 (text : List Nat) :
    decodeTypedstreamLength (nsStringMarker ++ [129, 44, 1] ++ text) 8 = (300, 3) := by
  have hblen : (nsStringMarker ++ [129, 44, 1] ++ text).length = 11 + text.length := by
    simp [nsStringMarker]
    omega
  have h8 : (nsStringMarker ++ [129, 44, 1] ++ text).getD 8 0 = 129 := by
    rw [getD_in_marker_block _ _ _ (by simp)]
    decide
  have h9 : (nsStringMarker ++ [129, 44, 1] ++ text).getD 9 0 = 44 := by
    rw [getD_in_marker_block _ _ _ (by simp)]
    decide
  have h10 : (nsStringMarker ++ [129, 44, 1] ++ text).getD 10 0 = 1 := by
    rw [getD_in_marker_block _ _ _ (by simp)]
    decide
  simp only [decodeTypedstreamLength, h8, h9, h10, hblen]
  split_ifs <;> first | decide | (exfalso; omega)

theorem decode_synthetic_70000 (text : List Nat) :
    decodeTypedstreamLength (nsStringMarker ++ [130, 112, 17, 1, 0] ++ text) 8 = (70000, 5) := by
  have hblen : (nsStringMarker ++ [130, 112, 17, 1, 0] ++ text).length = 13 + text.length := by
    simp [nsStringMarker]
    omega
  have h8 : (nsStringMarker ++ [130, 112, 17, 1, 0] ++ text).getD 8 0 = 130 := by
    rw [getD_in_marker_block _ _ _ (by simp)]
    decide
  have h9 : (nsStringMarker ++ [130, 112, 17, 1, 0] ++ text).getD 9 0 = 112 := by
    rw [getD_in_marker_block _ _ _ (by simp)]
    decide
  have h10 : (nsStringMarker ++ [130, 112, 17, 1, 0] ++ text).getD 10 0 = 17 := by
    rw [getD_in_marker_block _ _ _ (by simp)]
    decide
  have h11 : (nsStringMarker ++ [130, 112, 17, 1, 0] ++ text).getD 11 0 = 1 := by
    rw [getD_in_marker_block _ _ _ (by simp)]
    decide
  have h12 : (nsStringMarker ++ [130, 112, 17, 1, 0] ++ text).getD 12 0 = 0 := by
    rw [getD_in_marker_block _ _ _ (by simp)]
    decide
  simp only [decodeTypedstreamLength, readUInt32LE, h8, h9, h10, h11, h12, hblen]
  split_ifs <;> first | decide | (exfalso; omega)

theorem isPrintableText_of_ascii {text : List Nat} (hascii : ∀ b ∈ text, 32 ≤ b ∧ b ≤ 126)
    (hne : 0 < text.length) : isPrintableText text = true := by
  have hcount : text.countP isPrintableCodeUnit = text.length := by
    refine List.countP_eq_length.mpr ?_
    intro a ha
    have := hascii a ha
    simp only [isPrintableCodeUnit, Bool.or_eq_true, Bool.and_eq_true, decide_eq_true_eq]
    omega
  simp only [isPrintableText, hcount]
  rw [if_neg (by omega)]
  simp
  omega

/-- Claim C3: for each of the lengths 255 (single-byte length prefix), 300
(u16 prefix `0x81 0x2C 0x01`) and 70000 (u32 prefix `0x82 0x70 0x11 0x01
0x00`), a synthetic blob consisting of the legacy class marker `"NSString"`
followed by the correctly length-prefixed printable text is decoded by
`parseAttributedBody` back to exactly that text. -/
theorem parseAttributedBody_roundtrip (text : List Nat)
    (hascii : ∀ b ∈ text, 32 ≤ b ∧ b ≤ 126) :
    (text.length = 255 →
      parseAttributedBody (some (nsStringMarker ++ [255] ++ text)) = text)
    ∧ (text.length = 300 →
      parseAttributedBody (some (nsStringMarker ++ [129, 44, 1] ++ text)) = text)
    ∧ (text.length = 70000 →
      parseAttributedBody (some (nsStringMarker ++ [130, 112, 17, 1, 0] ++ text)) = text) := by
  refine ⟨?_, ?_, ?_⟩
  · intro hlen
    have hprint := isPrintableText_of_ascii hascii (by omega)
    have htry := tryMarkerStrategy_synthetic 255 [] text (by omega)
      (by rw [decode_synthetic_255, hlen]; rfl) (by omega) (by omega) hprint
    rw [parseAttributedBody_eq_orElse, htry]
  · intro hlen
    have hprint := isPrintableText_of_ascii hascii (by omega)
    have htry := tryMarkerStrategy_synthetic 129 [44, 1] text (by omega)
      (by rw [decode_synthetic_300, hlen]; rfl) (by omega) (by omega) hprint
    rw [parseAttributedBody_eq_orElse, htry]
  · intro hlen
    have hprint := isPrintableText_of_ascii hascii (by omega)
    have htry := tryMarkerStrategy_synthetic 130 [112, 17, 1, 0] text (by omega)
      (by rw [decode_synthetic_70000, hlen]; rfl) (by omega) (by omega) hprint
    rw [parseAttributedBody_eq_orElse, htry]

/-- Witness for C3 at the texts the repo's own tests use
(`'A'.repeat(255)`, `'B'.repeat(300)`, `'D'.repeat(70000)`). -/
theorem parseAttributedBody_roundtrip_witness :
    parseAttributedBody (some (nsStringMarker ++ [255] ++ List.replicate 255 65)) =
      List.replicate 255 65
    ∧ parseAttributedBody (some (nsStringMarker ++ [129, 44, 1] ++ List.replicate 300 66)) =
      List.replicate 300 66
    ∧ parseAttributedBody
        (some (nsStringMarker ++ [130, 112, 17, 1, 0] ++ List.replicate 70000 68)) =
      List.replicate 70000 68 := by
  refine ⟨?_, ?_, ?_⟩
  · exact (parseAttributedBody_roundtrip (List.replicate 255 65)
      (by intro b hb; obtain rfl := List.eq_of_mem_replicate hb; omega)).1
      (List.length_replicate _ _)
  · exact (parseAttributedBody_roundtrip (List.replicate 300 66)
      (by intro b hb; obtain rfl := List.eq_of_mem_replicate hb; omega)).2.1
      (List.length_replicate _ _)
  · exact (parseAttributedBody_roundtrip (List.replicate 70000 68)
      (by intro b hb; obtain rfl := List.eq_of_mem_replicate hb; omega)).2.2
      (List.length_replicate _ _)

/-! ### Claim C5 -/

/-- Claim C5: the text resolver returns the plain-text column verbatim
whenever it is non-blank after trimming, independent of the blob; otherwise
(column absent, empty, or blank) it parses the blob, whose result is the
marker strategies with the printable-region fallback, and the empty string
when the blob is absent or empty. -/
theorem getMessageText_spec :
    (∀ (t : List Nat) (blob : Option (List Nat)), (jsTrim t).length ≠ 0 →
        getMessageText (some t) blob = t)
    ∧ (∀ (t : List Nat) (blob : Option (List Nat)), (jsTrim t).length = 0 →
        getMessageText (some t) blob = parseAttributedBody blob)
    ∧ (∀ blob, getMessageText none blob = parseAttributedBody blob)
    ∧ parseAttributedBody none = []
    ∧ parseAttributedBody (some []) = []
    ∧ (∀ b : List Nat,
        parseAttributedBody (some b) =
          (match tryMarkerStrategy nsStringMarker b with
           | some t => t
           | none =>
             match tryMarkerStrategy nsMutableStringMarker b with
             | some t => t
             | none => extractPrintableRegions b)) := by
  refine ⟨?_, ?_, fun _ => rfl, rfl, by decide, parseAttributedBody_eq_orElse⟩
  · intro t blob h
    have ht : t ≠ [] := by
      intro he
      subst he
      exact h rfl
    simp only [getMessageText]
    rw [if_pos ⟨ht, by omega⟩]
  · intro t blob h
    simp only [getMessageText]
    rw [if_neg]
    intro hc
    omega

/-- Witness for C5: plain text `"Hello"` wins over a junk blob; a blank
column falls through to the blob parser. -/
theorem getMessageText_spec_witness :
    getMessageText (some [72, 101, 108, 108, 111]) (some [1, 2, 3]) = [72, 101, 108, 108, 111]
    ∧ getMessageText (some [32, 32]) none = parseAttributedBody none :=
  ⟨getMessageText_spec.1 [72, 101, 108, 108, 111] (some [1, 2, 3]) (by decide),
    getMessageText_spec.2.1 [32, 32] none (by decide)⟩

/-! ### Claim C6 -/

/-- Counterexample to C6: a `Message` row whose archive timestamp is the
sentinel `0` is not serialized with an absent date — `rowToMessage`
substitutes the current wall-clock instant (`new Date().toISOString()`),
whatever it happens to be. -/
theorem rowToMessage_zero_date_counterexample :
    macosTimestampToISO (some 0) = none
    ∧ (rowToMessage ⟨[], []⟩ 111 ⟨1, [103], none, none, some 0, 1, 0, 0, none⟩).date = 111
    ∧ (rowToMessage ⟨[], []⟩ 222 ⟨1, [103], none, none, some 0, 1, 0, 0, none⟩).date = 222 := by
  refine ⟨rfl, rfl, rfl⟩

/-- Claim C6 (amended): the timestamp converter maps a null or sentinel-zero
archive value to absent and a nonzero value to the derived instant, and that
is what reaches every optional timestamp field; but the required `date`
field of a `Message` record is filled with the current time (`now`) when
the archive timestamp is null or zero, not serialized as absent. -/
theorem message_timestamp_spec (db : ChatDb) (now : Int) (row : MessageRow) :
    macosTimestampToISO none = none
    ∧ macosTimestampToISO (some 0) = none
    ∧ (∀ n : Int, n ≠ 0 → macosTimestampToISO (some n) = some (n / 1000000 + 978307200000))
    ∧ ((row.date = none ∨ row.date = some 0) → (rowToMessage db now row).date = now)
    ∧ (∀ n : Int, row.date = some n → n ≠ 0 →
        (rowToMessage db now row).date = n / 1000000 + 978307200000) := by
  refine ⟨rfl, rfl, ?_, ?_, ?_⟩
  · intro n hn
    simp [macosTimestampToISO, hn]
  · intro h
    have habs : macosTimestampToISO row.date = none := by
      rcases h with h | h <;> simp [macosTimestampToISO, h]
    simp [rowToMessage, habs]
  · intro n hn hne
    have hsome : macosTimestampToISO row.date = some (n / 1000000 + 978307200000) := by
      rw [hn]
      simp [macosTimestampToISO, hne]
    simp [rowToMessage, hsome]

/-- Witness for C6 (amended) at a zero and a nonzero archive timestamp. -/
theorem message_timestamp_spec_witness :
    (rowToMessage ⟨[], []⟩ 7 ⟨1, [], none, none, some 0, 1, 0, 0, none⟩).date = 7
    ∧ (rowToMessage ⟨[], []⟩ 7 ⟨1, [], none, none, some 978307200000000000, 1, 0, 0,
        none⟩).date = 978307200000000000 / 1000000 + 978307200000 :=
  ⟨(message_timestamp_spec ⟨[], []⟩ 7 _).2.2.2.1 (Or.inr rfl),
    (message_timestamp_spec ⟨[], []⟩ 7 _).2.2.2.2 978307200000000000 rfl (by decide)⟩

/-! ### Claim C7 -/

theorem mem_insertDateDesc {x r : MessageRow} {l : List MessageRow} :
    x ∈ insertDateDesc r l ↔ x ∈ r :: l := by
  induction l with
  | nil => simp [insertDateDesc]
  | cons h t ih =>
    simp only [insertDateDesc]
    by_cases hc : sqlDateLt h.date r.date = true
    · rw [if_pos hc]
    · rw [if_neg hc]
      simp only [List.mem_cons, ih, List.mem_cons]
      tauto

theorem mem_sortDateDesc {x : MessageRow} {l : List MessageRow} :
    x ∈ sortDateDesc l ↔ x ∈ l := by
  induction l with
  | nil => simp [sortDateDesc]
  | cons h t ih =>
    simp only [sortDateDesc, mem_insertDateDesc, List.mem_cons, ih]

/-- Counterexample to C7: a stored message whose resolved text contains the
query (the text lives only in the `attributedBody` blob and the resolver
recovers it) is not returned by `searchMessages`, because the SQL filter
matches the raw `text` column and a `NULL` column never matches `LIKE`. -/
theorem searchMessages_misses_blob_text :
    sqlLike (likePattern fallbackQuery)
      (getMessageText blobOnlyRow.text blobOnlyRow.attributedBody) = true
    ∧ searchMessages blobOnlyDb 0 fallbackQuery none none = [] := by
  constructor
  · decide
  · decide

/-- Claim C7 (amended): the free-text search matches the raw plain-text
column with SQL `LIKE '%query%'`: every returned message (up to the limit)
comes from a stored row whose `text` column is non-null and LIKE-matches
the pattern and which passes the chat filter; a row whose text is only
recoverable from the blob is never returned, even when its resolved text
contains the query (see the counterexample). -/
theorem searchMessages_raw_text_only (db : ChatDb) (now : Int) (q : List Nat)
    (chatId : Option Nat) (limit : Option Nat) :
    (∀ m ∈ searchMessages db now q chatId limit,
      ∃ row ∈ db.messages,
        (∃ t, row.text = some t ∧ sqlLike (likePattern q) t = true)
        ∧ passesChatFilter chatId row = true
        ∧ m = rowToMessage db now row)
    ∧ (searchMessages db now q chatId limit).length ≤ limit.getD 50 := by
  constructor
  · intro m hm
    simp only [searchMessages] at hm
    obtain ⟨row, hrow, hfm⟩ := List.mem_map.mp hm
    have hrow' : row ∈ sortDateDesc (db.messages.filter fun r =>
        (match r.text with
         | none => false
         | some t => sqlLike (likePattern q) t) && passesChatFilter chatId r) :=
      List.take_subset _ _ hrow
    have hrow'' := mem_sortDateDesc.mp hrow'
    obtain ⟨hmem, hpred⟩ := List.mem_filter.mp hrow''
    rw [Bool.and_eq_true] at hpred
    refine ⟨row, hmem, ?_, hpred.2, hfm.symm⟩
    cases htext : row.text with
    | none =>
      rw [htext] at hpred
      simp at hpred
    | some t =>
      rw [htext] at hpred
      exact ⟨t, rfl, hpred.1⟩
  · simp only [searchMessages, List.length_map]
    exact List.length_take_le _ _

/-- Witness for C7 (amended): on a one-row archive with plain text `"hi"`
and query `"hi"`, the single returned message comes from that row. -/
theorem searchMessages_raw_text_only_witness :
    ∃ row ∈ plainDb.messages,
      (∃ t, row.text = some t ∧ sqlLike (likePattern [104, 105]) t = true)
      ∧ passesChatFilter none row = true
      ∧ rowToMessage plainDb 0 plainRow = rowToMessage plainDb 0 row :=
  (searchMessages_raw_text_only plainDb 0 [104, 105] none none).1
    (rowToMessage plainDb 0 plainRow) (by decide)

/-! ### Claim C8 -/

/-- Claim C8 is a code bug: the `list_messages` tool description advertises
a contact-name filter, but `listMessagesSchema` has no `contact` key — zod
strips the unknown key — and `MessagesService.listMessages` never calls the
contact-resolution collaborator; the call therefore returns the unfiltered
message list instead of the contact-filtered (possibly empty) one.  This
theorem evaluates the code at the failing input: the `contact` parameter is
stripped, and the unfiltered query returns the archive's message rather
than an empty (or contact-filtered) result. -/
theorem listMessages_ignores_contact_param :
    ("contact" ∈ listMessagesSchemaKeys ↔ False)
    ∧ stripUnknownKeys listMessagesSchemaKeys [("contact", "Alice")] = []
    ∧ listMessages plainDb 0 ⟨none, none, none, none, none⟩ =
        [rowToMessage plainDb 0 plainRow] := by
  refine ⟨by decide, by decide, by decide⟩

/-! ### Claim C9 -/

/-- Claim C9 is a code bug: `isoToMacosTimestamp` on an unparseable date
bound (a `NaN` parse result) silently yields `NaN` instead of rejecting the
query; the `NaN` bound is stored by SQLite as `NULL`, the date comparison
is then never true, and `listMessages` silently returns an empty result on
a nonempty archive — the "silently matches nothing" behavior the spec
forbids.  Without the bad bound the same query returns the message. -/
theorem isoToMacosTimestamp_nan_silent :
    isoToMacosTimestamp JsNum.nan = JsNum.nan
    ∧ listMessages plainDb 0 ⟨none, none, some JsNum.nan, none, none⟩ = []
    ∧ listMessages plainDb 0 ⟨none, none, none, none, none⟩ =
        [rowToMessage plainDb 0 plainRow] := by
  refine ⟨rfl, by decide, by decide⟩
